import Mathlib

/-!
Verification of the nutrient aggregation and status-classification core of
the Health_Tracker application (src/app.py), shallowly embedded in Lean 4.

The development has two layers.

The rational layer keeps every number as an exact rational (`ℚ`): `PyVal`
carries a number (with an explicit NaN flag), a string, or None, and
`pyFloatChars` models the Python builtin `float(str)` over the plain
numeric-literal grammar (optional sign, digits with an optional decimal
point, optional exponent).  This layer is used for the structural
properties (branch selection, splitting, aggregation), for which the
special float values are irrelevant.

The extended layer makes the behaviour that `ℚ` cannot express explicit:
`PyFloat` distinguishes finite values, the two infinities, and NaN;
`pyFloatFullChars` extends the float grammar with the case-insensitive
literals `nan`, `inf` and `infinity` (with optional sign) and with
underscore digit separators; `parse_calorie_value_full` returns in an
exception monad because the numeric branch of the source has no
try/except and raises an uncaught OverflowError when `np.isnan`/`float`
receive an int at or beyond the float64 range (modelled as magnitude at
least `2 ^ 1024`); `to_numeric_full`/`safe_sum_full` model the pandas
coercion, whose parser accepts signed `inf`/`nan` forms (but not
underscores) and whose `fillna(0)` replaces only NaN, letting infinities
through into the IEEE sum (`PyFloat.add`).  Finite values remain exact
rationals in both layers: float64 rounding and the overflow of a huge
finite literal to infinity are below the granularity of every property
proved here.  Whitespace stripping is modelled over the six ASCII
whitespace characters; the further Unicode whitespace accepted by Python
is outside the modelled character set.
-/

/-- ASCII decimal digit test (calculation on `Char.toNat` so that kernel
evaluation is cheap). -/
def isAsciiDigit (c : Char) : Bool :=
  48 ≤ c.toNat && c.toNat ≤ 57

/-- Whitespace characters removed by the Python `str.strip()` / `float()`:
space, tab, newline, carriage return, vertical tab, form feed. -/
def isPySpace (c : Char) : Bool :=
  c = ' ' || c = '\t' || c = '\n' || c = '\r' || c.toNat = 11 || c.toNat = 12

/-- Python `str.strip()`: drop leading and trailing whitespace. -/
def trimChars (cs : List Char) : List Char :=
  ((cs.dropWhile isPySpace).reverse.dropWhile isPySpace).reverse

/-- Value of a list of ASCII digits read in base 10. -/
def natOfDigits (cs : List Char) : Nat :=
  cs.foldl (fun a c => a * 10 + (c.toNat - 48)) 0

/-- Scale a mantissa by the parsed exponent `e` (negative when `negExp`). -/
def applyExp (base : ℚ) (negExp : Bool) (e : Nat) : ℚ :=
  if negExp then base / 10 ^ e else base * 10 ^ e

/-- Parse an optional exponent suffix (`e`/`E`, optional sign, digits) after
the mantissa; the whole remaining input must be consumed. -/
def parseExpSuffix (base : ℚ) (cs : List Char) : Option ℚ :=
  match cs with
  | [] => some base
  | c :: rest =>
    if c = 'e' || c = 'E' then
      let signRest : Bool × List Char :=
        match rest with
        | '+' :: r => (false, r)
        | '-' :: r => (true, r)
        | r => (false, r)
      let ds := signRest.2.takeWhile isAsciiDigit
      if ds.isEmpty || !(signRest.2.dropWhile isAsciiDigit).isEmpty then none
      else some (applyExp base signRest.1 (natOfDigits ds))
    else none

/-- Parse an unsigned float literal: digits with an optional decimal point
(at least one digit overall) and an optional exponent. -/
def parseUnsignedChars (cs : List Char) : Option ℚ :=
  let ip := cs.takeWhile isAsciiDigit
  let rest := cs.dropWhile isAsciiDigit
  match rest with
  | '.' :: rest2 =>
    let fp := rest2.takeWhile isAsciiDigit
    let rest3 := rest2.dropWhile isAsciiDigit
    if ip.isEmpty && fp.isEmpty then none
    else parseExpSuffix ((natOfDigits ip : ℚ) + (natOfDigits fp : ℚ) / 10 ^ fp.length) rest3
  | _ =>
    if ip.isEmpty then none
    else parseExpSuffix (natOfDigits ip : ℚ) rest

/-- Rational-layer model of Python `float(text)` on already-stripped
character data: an optional leading sign followed by an unsigned literal.
The special `nan`/`inf` literals and underscore separators belong to the
extended layer (`pyFloatFullChars` below). -/
def pyFloatChars (cs : List Char) : Option ℚ :=
  match cs with
  | '+' :: rest => parseUnsignedChars rest
  | '-' :: rest => (parseUnsignedChars rest).map (fun v => -v)
  | _ => parseUnsignedChars cs

/-- Model of Python `float(s)` on a string: strip whitespace, then parse. -/
def pyFloatOfString (s : String) : Option ℚ :=
  pyFloatChars (trimChars s.toList)

/-- Python `text.split(sep)` for a one-character separator: splits on every
occurrence, keeping empty segments (`"".split(sep) = [""]`). -/
def splitOnChar (sep : Char) : List Char → List (List Char)
  | [] => [[]]
  | c :: rest =>
    match splitOnChar sep rest with
    | h :: t => if c = sep then [] :: h :: t else (c :: h) :: t
    | [] => [[]]

/-- A Python value as it can reach `parse_calorie_value` or a dataframe
cell: a number (with an explicit flag marking a float NaN), a string,
or `None`. -/
inductive PyVal where
  | num (isNaN : Bool) (v : ℚ)
  | str (s : String)
  | pyNone
deriving DecidableEq

/-- String branch of `parse_calorie_value` (src/app.py:139-152): strip the
text; if it contains a hyphen, split on every hyphen and average the
first two parts, returning 0.0 if either fails to parse (the bare `except`);
otherwise parse the whole text, returning 0.0 on failure. -/
def parse_calorie_str (s : String) : ℚ :=
  let t := trimChars s.toList
  if t.contains '-' then
    match splitOnChar '-' t with
    | p0 :: p1 :: _ =>
      match pyFloatChars (trimChars p0), pyFloatChars (trimChars p1) with
      | some low, some high => (low + high) / 2
      | _, _ => 0
    | _ => 0
  else
    match pyFloatChars t with
    | some v => v
    | none => 0

/-- The function `parse_calorie_value` (src/app.py:132-152).  A numeric input is
returned as-is unless it is NaN (then 0.0); any other input is converted
with `str()` (so `None` becomes the text `"None"`) and handled by the
string branch. -/
def parse_calorie_value : PyVal → ℚ
  | .num true _ => 0
  | .num false v => v
  | .str s => parse_calorie_str s
  | .pyNone => parse_calorie_str "None"

/-- The qualitative band labels returned by `get_status`
(src/app.py:1406-1427), with the emoji prefixes dropped. -/
inductive Band where
  | wellBelowLimit
  | optimal
  | approachingLimit
  | limitExceeded
  | dangerouslyHigh
  | tooHigh
  | targetAchieved
  | belowOptimal
  | criticalLow
deriving DecidableEq

/-- The limit arm (`nutrient_type` equal to "limit") of `get_status`
(src/app.py:1408-1416). -/
def limit_status (actual target : ℚ) : Band :=
  if actual ≤ target * 0.8 then .wellBelowLimit
  else if actual ≤ target then .optimal
  else if actual ≤ target * 1.15 then .approachingLimit
  else .limitExceeded

/-- The default (`else`) arm of `get_status` (src/app.py:1417-1427), with
`tolerance = 0.15`. -/
def normal_status (actual target : ℚ) : Band :=
  let tolerance : ℚ := 0.15
  if actual > target * 2.5 then .dangerouslyHigh
  else if actual > target * 1.5 then .tooHigh
  else if actual ≥ target * (1 - tolerance) ∧ actual ≤ target * 1.5 then .targetAchieved
  else if actual ≥ target * 0.65 then .belowOptimal
  else .criticalLow

/-- The function `get_status` (src/app.py:1406-1427): dispatch on the
`nutrient_type` string (default argument "normal" in the source). -/
def get_status (actual target : ℚ) (nutrient_type : String) : Band :=
  if nutrient_type = "limit" then limit_status actual target
  else normal_status actual target

/-- The cell-wise coercion `pd.to_numeric` with coercing errors followed
by `fillna(0)`, applied to one cell:
a finite number stays itself, NaN and `None` coerce to 0, and a string is
parsed as a float with parse failure coerced to 0. -/
def to_numeric_fillna0 (c : PyVal) : ℚ :=
  match c with
  | .num true _ => 0
  | .num false v => v
  | .str s => (pyFloatOfString s).getD 0
  | .pyNone => 0

/-- The function `safe_sum` (src/app.py:338-340): coerce every cell of the series to a
number (failures and NaN becoming 0) and sum. -/
def safe_sum (series : List PyVal) : ℚ :=
  (series.map to_numeric_fillna0).sum

/-- One row of the meals dataframe, restricted to the columns
`calculate_macros` reads. -/
structure MealRecord where
  date : String
  calories : PyVal
  protein : PyVal
  fat : PyVal
  carbs : PyVal
deriving DecidableEq

/-- The dictionary returned by `calculate_macros`. -/
structure MacroResult where
  total_calories : ℚ
  avg_calories : ℚ
  total_protein : ℚ
  avg_protein : ℚ
  total_fat : ℚ
  avg_fat : ℚ
  total_carbs : ℚ
  avg_carbs : ℚ
  meal_count : Nat
  days_count : Nat
deriving DecidableEq

/-- The function `calculate_macros` (src/app.py:306-335).  An empty dataframe returns
the all-zero dictionary; otherwise `days_count` is the `nunique()` count
of the date column
(the number of distinct dates), the calorie column is passed through
`parse_calorie_value`, and each average divides by `days_count` when it is
positive (else 0). -/
def calculate_macros (df : List MealRecord) : MacroResult :=
  if df.isEmpty then
    { total_calories := 0, avg_calories := 0
      total_protein := 0, avg_protein := 0
      total_fat := 0, avg_fat := 0
      total_carbs := 0, avg_carbs := 0
      meal_count := 0, days_count := 0 }
  else
    let meal_count := df.length
    let days_count := (df.map (fun r => r.date)).dedup.length
    let calories_numeric := df.map (fun r => parse_calorie_value r.calories)
    { total_calories := calories_numeric.sum
      avg_calories := if 0 < days_count then calories_numeric.sum / days_count else 0
      total_protein := safe_sum (df.map (fun r => r.protein))
      avg_protein := if 0 < days_count then safe_sum (df.map (fun r => r.protein)) / days_count else 0
      total_fat := safe_sum (df.map (fun r => r.fat))
      avg_fat := if 0 < days_count then safe_sum (df.map (fun r => r.fat)) / days_count else 0
      total_carbs := safe_sum (df.map (fun r => r.carbs))
      avg_carbs := if 0 < days_count then safe_sum (df.map (fun r => r.carbs)) / days_count else 0
      meal_count := meal_count
      days_count := days_count }

/-- Modelled from the spec (§4.1 step 3): the range rule as the claim
states it — split the trimmed text on the FIRST hyphen only, the low part
being everything before it and the high part everything after it; parse
both and average, returning 0.0 if either part fails to parse.  This is
the claim-side definition, to be compared with `parse_calorie_str`. -/
def firstHyphenMean (cs : List Char) : ℚ :=
  let low := cs.takeWhile (fun c => c ≠ '-')
  let high := (cs.dropWhile (fun c => c ≠ '-')).drop 1
  match pyFloatChars (trimChars low), pyFloatChars (trimChars high) with
  | some l, some h => (l + h) / 2
  | _, _ => 0

/-- The range rule as the code implements it: split the trimmed text on
EVERY hyphen and take the first two resulting parts as low and high; parse
both and average, returning 0.0 if either fails.  Stated separately so the
amended claim can be phrased against it. -/
def everyHyphenMean (cs : List Char) : ℚ :=
  match splitOnChar '-' cs with
  | p0 :: p1 :: _ =>
    match pyFloatChars (trimChars p0), pyFloatChars (trimChars p1) with
    | some l, some h => (l + h) / 2
    | _, _ => 0
  | _ => 0

/-- A concrete two-meal log used to instantiate universally quantified
theorems: two meals on distinct dates, calories `"300"` and `"450-550"`. -/
def sampleMeals : List MealRecord :=
  [{ date := "2024-01-01", calories := .str "300", protein := .num false 20,
     fat := .num false 10, carbs := .num false 30 },
   { date := "2024-01-02", calories := .str "450-550", protein := .num false 35,
     fat := .num false 15, carbs := .num false 40 }]

/-- An IEEE-754 double as the program can observe it: a finite value
(kept exact as a rational, the same abstraction used throughout), one of
the two infinities, or NaN.  This richer type carries the results that
`ℚ` cannot represent: `float("nan")`, `float("inf")` and their
propagation through arithmetic. -/
inductive PyFloat where
  | finite (v : ℚ)
  | posInf
  | negInf
  | nan
deriving DecidableEq

/-- Negation of a float (`float("-inf")`, `-nan` is still NaN). -/
def PyFloat.neg : PyFloat → PyFloat
  | .finite v => .finite (-v)
  | .posInf => .negInf
  | .negInf => .posInf
  | .nan => .nan

/-- IEEE addition on the extended type: NaN propagates, opposite
infinities give NaN, an infinity absorbs any finite value. -/
def PyFloat.add : PyFloat → PyFloat → PyFloat
  | .nan, _ => .nan
  | _, .nan => .nan
  | .posInf, .negInf => .nan
  | .negInf, .posInf => .nan
  | .posInf, _ => .posInf
  | _, .posInf => .posInf
  | .negInf, _ => .negInf
  | _, .negInf => .negInf
  | .finite a, .finite b => .finite (a + b)

/-- Halving, used for the range mean: infinities and NaN are unchanged. -/
def PyFloat.half : PyFloat → PyFloat
  | .finite v => .finite (v / 2)
  | x => x

/-- Whether a float is a negative real value or negative infinity.  NaN is
not negative (every comparison with NaN is false). -/
def PyFloat.isNeg : PyFloat → Bool
  | .finite v => decide (v < 0)
  | .negInf => true
  | _ => false

/-- ASCII lower-casing of one character, for the case-insensitive special
float literals. -/
def lowerCh (c : Char) : Char :=
  if 65 ≤ c.toNat && c.toNat ≤ 90 then Char.ofNat (c.toNat + 32) else c

/-- Scan after the first character: every underscore must sit between two
digits (the lexical rule for underscores in Python numeric literals). -/
def underscoresOkFrom (prev : Char) : List Char → Bool
  | [] => true
  | c :: rest =>
    if c = '_' then
      (isAsciiDigit prev &&
        (match rest with
         | d :: _ => isAsciiDigit d
         | [] => false)) &&
      underscoresOkFrom c rest
    else underscoresOkFrom c rest

/-- Validity of underscore placement in a Python numeric literal: no
leading underscore, and every underscore between two digits. -/
def underscoresOk : List Char → Bool
  | [] => true
  | c :: rest => if c = '_' then false else underscoresOkFrom c rest

/-- The unsigned part of a full Python float literal: the case-insensitive
special literals `nan`, `inf` and `infinity`, else the numeric grammar of
`parseUnsignedChars`.  A finite value is kept exact; Python would round it
to the nearest double (and overflow a huge exponent to infinity), a
precision refinement that no claim here depends on. -/
def parseUnsignedFull (cs : List Char) : Option PyFloat :=
  let l := cs.map lowerCh
  if l = ['n', 'a', 'n'] then some .nan
  else if l = ['i', 'n', 'f'] then some .posInf
  else if l = ['i', 'n', 'f', 'i', 'n', 'i', 't', 'y'] then some .posInf
  else (parseUnsignedChars cs).map PyFloat.finite

/-- Full model of Python `float(text)` on stripped character data:
validate and drop digit-group underscores, take an optional sign, then the
unsigned literal including the `nan`/`inf`/`infinity` forms. -/
def pyFloatFullChars (cs : List Char) : Option PyFloat :=
  if underscoresOk cs then
    match cs.filter (fun c => c ≠ '_') with
    | '+' :: rest => parseUnsignedFull rest
    | '-' :: rest => (parseUnsignedFull rest).map PyFloat.neg
    | cs2 => parseUnsignedFull cs2
  else none

/-- Full model of Python `float(s)` on a string. -/
def pyFloatFull (s : String) : Option PyFloat :=
  pyFloatFullChars (trimChars s.toList)

/-- The string parser of `pd.to_numeric`: signed `nan`/`inf`/`infinity`
and the plain numeric grammar, but no underscore support (the pandas
parser, unlike `float()`, rejects underscores). -/
def pdToNumericStr (s : String) : Option PyFloat :=
  match trimChars s.toList with
  | '+' :: rest => parseUnsignedFull rest
  | '-' :: rest => (parseUnsignedFull rest).map PyFloat.neg
  | cs => parseUnsignedFull cs

/-- A Python value in the extended model: a float (possibly infinite or
NaN), an arbitrary-precision int, a string, or `None`. -/
inductive PyCell where
  | float (x : PyFloat)
  | int (n : ℤ)
  | str (s : String)
  | pyNone
deriving DecidableEq

/-- The one uncaught exception the normalizer can raise. -/
inductive PyError where
  | overflowError
deriving DecidableEq

/-- String branch of `parse_calorie_value` in the extended model: same
control flow as `parse_calorie_str`, but parsing with the full float
grammar and averaging with IEEE arithmetic, so `nan` and `inf` literals
produce NaN and infinite results instead of failing.  This branch never
raises (every failure is caught and becomes 0.0). -/
def parse_calorie_str_full (s : String) : PyFloat :=
  let t := trimChars s.toList
  if t.contains '-' then
    match splitOnChar '-' t with
    | p0 :: p1 :: _ =>
      match pyFloatFullChars (trimChars p0), pyFloatFullChars (trimChars p1) with
      | some low, some high => PyFloat.half (PyFloat.add low high)
      | _, _ => .finite 0
    | _ => .finite 0
  else
    match pyFloatFullChars t with
    | some v => v
    | none => .finite 0

/-- `parse_calorie_value` (src/app.py:132-152) in the extended model.  The
numeric branch has no try/except: a float is checked by `np.isnan` (NaN
becomes 0.0, anything else — infinities included — is returned as-is),
while an int is first fed to `np.isnan`/`float`, which raise an uncaught
OverflowError when its magnitude is at or beyond the float64 range
(modelled as `2 ^ 1024`; the true cutoff is a rounding step below, which
no claim exercises).  Strings and `None` go to the never-raising string
branch. -/
def parse_calorie_value_full : PyCell → Except PyError PyFloat
  | .float x => if x = .nan then .ok (.finite 0) else .ok x
  | .int n => if 2 ^ 1024 ≤ n.natAbs then .error .overflowError else .ok (.finite (n : ℚ))
  | .str s => .ok (parse_calorie_str_full s)
  | .pyNone => .ok (parse_calorie_str_full "None")

/-- `pd.to_numeric(·, errors="coerce").fillna(0)` on one cell in the
extended model: a NaN float and a `None` coerce to 0, but the infinities
pass `fillna` untouched; a string is parsed with the pandas parser, an
unparsable or NaN result becoming 0.  An int cell is kept exact. -/
def to_numeric_full (c : PyCell) : PyFloat :=
  match c with
  | .float .nan => .finite 0
  | .float x => x
  | .int n => .finite (n : ℚ)
  | .str s =>
    match pdToNumericStr s with
    | some .nan => .finite 0
    | some x => x
    | none => .finite 0
  | .pyNone => .finite 0

/-- `safe_sum` (src/app.py:338-340) in the extended model: coerce every
cell and sum with IEEE addition from 0. -/
def safe_sum_full (series : List PyCell) : PyFloat :=
  (series.map to_numeric_full).foldl PyFloat.add (.finite 0)

lemma get_status_limit (a t : ℚ) : get_status a t "limit" = limit_status a t := by
  unfold get_status
  rw [if_pos rfl]

lemma get_status_of_ne_limit (a t : ℚ) (k : String) (hk : k ≠ "limit") :
    get_status a t k = normal_status a t := by
  unfold get_status
  rw [if_neg hk]

lemma limit_status_eq_wellBelowLimit (a t : ℚ) :
    limit_status a t = .wellBelowLimit ↔ a ≤ t * 0.8 := by
  unfold limit_status
  split_ifs <;> simp_all

lemma limit_status_eq_optimal (a t : ℚ) :
    limit_status a t = .optimal ↔ t * 0.8 < a ∧ a ≤ t := by
  unfold limit_status
  split_ifs with h1 h2 h3 <;> simp_all <;> intro h <;> linarith

lemma limit_status_eq_approachingLimit (a t : ℚ) :
    limit_status a t = .approachingLimit ↔ t < a ∧ a ≤ t * 1.15 := by
  unfold limit_status
  split_ifs with h1 h2 h3 <;> simp_all <;> intro h <;> linarith

lemma limit_status_eq_limitExceeded (a t : ℚ) (ht : 0 < t) :
    limit_status a t = .limitExceeded ↔ t * 1.15 < a := by
  unfold limit_status
  split_ifs with h1 h2 h3 <;> simp_all <;> linarith

lemma normal_status_eq_ite (a t : ℚ) (ht : 0 < t) :
    normal_status a t =
      if t * 2.5 < a then .dangerouslyHigh
      else if t * 1.5 < a then .tooHigh
      else if t * 0.85 ≤ a then .targetAchieved
      else if t * 0.65 ≤ a then .belowOptimal
      else .criticalLow := by
  simp only [normal_status]
  rcases lt_or_le (t * 2.5) a with h1 | h1
  · rw [if_pos (show a > t * 2.5 from h1), if_pos h1]
  · rw [if_neg (show ¬ a > t * 2.5 by linarith), if_neg (show ¬ t * 2.5 < a by linarith)]
    rcases lt_or_le (t * 1.5) a with h2 | h2
    · rw [if_pos (show a > t * 1.5 from h2), if_pos h2]
    · rw [if_neg (show ¬ a > t * 1.5 by linarith), if_neg (show ¬ t * 1.5 < a by linarith)]
      rcases le_or_lt (t * 0.85) a with h3 | h3
      · rw [if_pos (show a ≥ t * (1 - 0.15) ∧ a ≤ t * 1.5 from ⟨by linarith, by linarith⟩),
          if_pos h3]
      · rw [if_neg (show ¬ (a ≥ t * (1 - 0.15) ∧ a ≤ t * 1.5) by rintro ⟨hx, -⟩; linarith),
          if_neg (show ¬ t * 0.85 ≤ a by linarith)]

lemma normal_status_eq_dangerouslyHigh (a t : ℚ) (ht : 0 < t) :
    normal_status a t = .dangerouslyHigh ↔ t * 2.5 < a := by
  rw [normal_status_eq_ite a t ht]
  split_ifs with h1 h2 h3 h4 <;> simp_all

lemma normal_status_eq_tooHigh (a t : ℚ) (ht : 0 < t) :
    normal_status a t = .tooHigh ↔ t * 1.5 < a ∧ a ≤ t * 2.5 := by
  rw [normal_status_eq_ite a t ht]
  split_ifs with h1 h2 h3 h4 <;> simp_all <;> linarith

lemma normal_status_eq_targetAchieved (a t : ℚ) (ht : 0 < t) :
    normal_status a t = .targetAchieved ↔ t * 0.85 ≤ a ∧ a ≤ t * 1.5 := by
  rw [normal_status_eq_ite a t ht]
  split_ifs with h1 h2 h3 h4 <;> simp_all <;> intro h <;> linarith

lemma normal_status_eq_belowOptimal (a t : ℚ) (ht : 0 < t) :
    normal_status a t = .belowOptimal ↔ t * 0.65 ≤ a ∧ a < t * 0.85 := by
  rw [normal_status_eq_ite a t ht]
  split_ifs with h1 h2 h3 h4 <;> simp_all <;> intro h <;> linarith

lemma normal_status_eq_criticalLow (a t : ℚ) (ht : 0 < t) :
    normal_status a t = .criticalLow ↔ a < t * 0.65 := by
  rw [normal_status_eq_ite a t ht]
  split_ifs with h1 h2 h3 h4 <;> simp_all <;> linarith

/-- C1: for every actual value and positive target, `get_status` with the
normal kind (tolerance 0.15) returns exactly the specified bands with the
stated boundary inclusivity: DANGEROUSLY_HIGH iff actual > 2.5*target;
TOO_HIGH iff 1.5*target < actual <= 2.5*target; TARGET_ACHIEVED iff
(1-0.15)*target <= actual <= 1.5*target; BELOW_OPTIMAL iff
0.65*target <= actual < (1-0.15)*target; CRITICAL_LOW iff
actual < 0.65*target; and in particular the three boundary examples. -/
theorem get_status_normal_bands (actual target : ℚ) (ht : 0 < target) :
    (get_status actual target "normal" = .dangerouslyHigh ↔ 2.5 * target < actual) ∧
    (get_status actual target "normal" = .tooHigh ↔
      1.5 * target < actual ∧ actual ≤ 2.5 * target) ∧
    (get_status actual target "normal" = .targetAchieved ↔
      (1 - 0.15) * target ≤ actual ∧ actual ≤ 1.5 * target) ∧
    (get_status actual target "normal" = .belowOptimal ↔
      0.65 * target ≤ actual ∧ actual < (1 - 0.15) * target) ∧
    (get_status actual target "normal" = .criticalLow ↔ actual < 0.65 * target) ∧
    get_status target target "normal" = .targetAchieved ∧
    get_status (0.85 * target) target "normal" = .targetAchieved ∧
    get_status (0.649 * target) target "normal" = .criticalLow := by
  have hn : ∀ a : ℚ, get_status a target "normal" = normal_status a target :=
    fun a => get_status_of_ne_limit a target "normal" (by decide)
  refine ⟨?_, ?_, ?_, ?_, ?_, ?_, ?_, ?_⟩
  · rw [hn, normal_status_eq_dangerouslyHigh _ _ ht]
    constructor <;> intro h <;> linarith
  · rw [hn, normal_status_eq_tooHigh _ _ ht]
    constructor <;> rintro ⟨u, v⟩ <;> exact ⟨by linarith, by linarith⟩
  · rw [hn, normal_status_eq_targetAchieved _ _ ht]
    constructor <;> rintro ⟨u, v⟩ <;> exact ⟨by linarith, by linarith⟩
  · rw [hn, normal_status_eq_belowOptimal _ _ ht]
    constructor <;> rintro ⟨u, v⟩ <;> exact ⟨by linarith, by linarith⟩
  · rw [hn, normal_status_eq_criticalLow _ _ ht]
    constructor <;> intro h <;> linarith
  · rw [hn]
    exact (normal_status_eq_targetAchieved _ _ ht).mpr ⟨by linarith, by linarith⟩
  · rw [hn]
    exact (normal_status_eq_targetAchieved _ _ ht).mpr ⟨by linarith, by linarith⟩
  · rw [hn]
    exact (normal_status_eq_criticalLow _ _ ht).mpr (by linarith)

/-- Witness for C1 at actual = 3, target = 2. -/
theorem get_status_normal_bands_witness :
    (0 : ℚ) < 2 ∧
    ((get_status 3 2 "normal" = .dangerouslyHigh ↔ (2.5 * 2 : ℚ) < 3) ∧
     (get_status 3 2 "normal" = .tooHigh ↔
       (1.5 * 2 : ℚ) < 3 ∧ (3 : ℚ) ≤ 2.5 * 2) ∧
     (get_status 3 2 "normal" = .targetAchieved ↔
       ((1 - 0.15) * 2 : ℚ) ≤ 3 ∧ (3 : ℚ) ≤ 1.5 * 2) ∧
     (get_status 3 2 "normal" = .belowOptimal ↔
       (0.65 * 2 : ℚ) ≤ 3 ∧ (3 : ℚ) < (1 - 0.15) * 2) ∧
     (get_status 3 2 "normal" = .criticalLow ↔ (3 : ℚ) < 0.65 * 2) ∧
     get_status 2 2 "normal" = .targetAchieved ∧
     get_status (0.85 * 2) 2 "normal" = .targetAchieved ∧
     get_status (0.649 * 2) 2 "normal" = .criticalLow) :=
  ⟨by norm_num, get_status_normal_bands 3 2 (by norm_num)⟩

/-- C2: for every actual value and positive target, `get_status` with the
limit kind returns exactly: WELL_BELOW_LIMIT iff actual <= 0.80*target;
OPTIMAL iff 0.80*target < actual <= target; APPROACHING_LIMIT iff
target < actual <= 1.15*target; LIMIT_EXCEEDED iff actual > 1.15*target;
and in particular the three boundary examples. -/
theorem get_status_limit_bands (actual target : ℚ) (ht : 0 < target) :
    (get_status actual target "limit" = .wellBelowLimit ↔ actual ≤ 0.80 * target) ∧
    (get_status actual target "limit" = .optimal ↔
      0.80 * target < actual ∧ actual ≤ target) ∧
    (get_status actual target "limit" = .approachingLimit ↔
      target < actual ∧ actual ≤ 1.15 * target) ∧
    (get_status actual target "limit" = .limitExceeded ↔ 1.15 * target < actual) ∧
    get_status target target "limit" = .optimal ∧
    get_status (1.0001 * target) target "limit" = .approachingLimit ∧
    get_status (1.16 * target) target "limit" = .limitExceeded := by
  have hl : ∀ a : ℚ, get_status a target "limit" = limit_status a target :=
    fun a => get_status_limit a target
  refine ⟨?_, ?_, ?_, ?_, ?_, ?_, ?_⟩
  · rw [hl, limit_status_eq_wellBelowLimit]
    constructor <;> intro h <;> linarith
  · rw [hl, limit_status_eq_optimal]
    constructor <;> rintro ⟨u, v⟩ <;> exact ⟨by linarith, by linarith⟩
  · rw [hl, limit_status_eq_approachingLimit]
    constructor <;> rintro ⟨u, v⟩ <;> exact ⟨by linarith, by linarith⟩
  · rw [hl, limit_status_eq_limitExceeded _ _ ht]
    constructor <;> intro h <;> linarith
  · rw [hl]
    exact (limit_status_eq_optimal _ _).mpr ⟨by linarith, le_refl _⟩
  · rw [hl]
    exact (limit_status_eq_approachingLimit _ _).mpr ⟨by linarith, by linarith⟩
  · rw [hl]
    exact (limit_status_eq_limitExceeded _ _ ht).mpr (by linarith)

/-- Witness for C2 at actual = 3, target = 2. -/
theorem get_status_limit_bands_witness :
    (0 : ℚ) < 2 ∧
    ((get_status 3 2 "limit" = .wellBelowLimit ↔ (3 : ℚ) ≤ 0.80 * 2) ∧
     (get_status 3 2 "limit" = .optimal ↔ (0.80 * 2 : ℚ) < 3 ∧ (3 : ℚ) ≤ 2) ∧
     (get_status 3 2 "limit" = .approachingLimit ↔
       (2 : ℚ) < 3 ∧ (3 : ℚ) ≤ 1.15 * 2) ∧
     (get_status 3 2 "limit" = .limitExceeded ↔ (1.15 * 2 : ℚ) < 3) ∧
     get_status 2 2 "limit" = .optimal ∧
     get_status (1.0001 * 2) 2 "limit" = .approachingLimit ∧
     get_status (1.16 * 2) 2 "limit" = .limitExceeded) :=
  ⟨by norm_num, get_status_limit_bands 3 2 (by norm_num)⟩

/-- C10: `get_status` is total over its kind argument — every kind other
than the exact string "limit" (including the default "normal" and any
unrecognized string) takes the normal-kind arm, so the result coincides
with the result for "normal". -/
theorem get_status_default_normal (actual target : ℚ) (k : String) (hk : k ≠ "limit") :
    get_status actual target k = get_status actual target "normal" := by
  rw [get_status_of_ne_limit actual target k hk,
    get_status_of_ne_limit actual target "normal" (by decide)]

/-- Witness for C10 at the unrecognized kind "protein". -/
theorem get_status_default_normal_witness :
    ("protein" : String) ≠ "limit" ∧
    get_status 1 2 "protein" = get_status 1 2 "normal" :=
  ⟨by decide, get_status_default_normal 1 2 "protein" (by decide)⟩

lemma applyExp_nonneg (base : ℚ) (neg : Bool) (e : Nat) (hb : 0 ≤ base) :
    0 ≤ applyExp base neg e := by
  unfold applyExp
  split_ifs
  · exact div_nonneg hb (by positivity)
  · exact mul_nonneg hb (by positivity)

lemma parseExpSuffix_nonneg (base : ℚ) (cs : List Char) (v : ℚ) (hb : 0 ≤ base)
    (h : parseExpSuffix base cs = some v) : 0 ≤ v := by
  cases cs with
  | nil =>
    simp only [parseExpSuffix, Option.some.injEq] at h
    exact h ▸ hb
  | cons c rest =>
    simp only [parseExpSuffix] at h
    split_ifs at h with h1 h2
    simp only [Option.some.injEq] at h
    exact h ▸ applyExp_nonneg _ _ _ hb

lemma parseUnsignedChars_nonneg (cs : List Char) (v : ℚ)
    (h : parseUnsignedChars cs = some v) : 0 ≤ v := by
  simp only [parseUnsignedChars] at h
  split at h
  · split_ifs at h with h1
    exact parseExpSuffix_nonneg _ _ _ (by positivity) h
  · split_ifs at h with h1
    exact parseExpSuffix_nonneg _ _ _ (by positivity) h

lemma mem_trimChars {c : Char} {cs : List Char} (h : c ∈ trimChars cs) : c ∈ cs := by
  unfold trimChars at h
  rw [List.mem_reverse] at h
  have h1 := (List.dropWhile_sublist isPySpace).subset h
  rw [List.mem_reverse] at h1
  exact (List.dropWhile_sublist isPySpace).subset h1

lemma splitOnChar_not_mem (sep : Char) (cs : List Char) :
    ∀ p ∈ splitOnChar sep cs, sep ∉ p := by
  induction cs with
  | nil =>
    intro p hp
    simp only [splitOnChar, List.mem_singleton] at hp
    subst hp
    simp
  | cons c rest ih =>
    intro p hp
    simp only [splitOnChar] at hp
    cases hsp : splitOnChar sep rest with
    | nil =>
      simp only [hsp, List.mem_singleton] at hp
      subst hp
      simp
    | cons q qs =>
      simp only [hsp] at hp
      by_cases hc : c = sep
      · rw [if_pos hc] at hp
        rcases List.mem_cons.mp hp with rfl | hp2
        · simp
        · exact ih p (by rw [hsp]; exact hp2)
      · rw [if_neg hc] at hp
        rcases List.mem_cons.mp hp with rfl | hp2
        · intro hm
          rcases List.mem_cons.mp hm with rfl | hm2
          · exact hc rfl
          · exact ih q (by rw [hsp]; exact List.mem_cons_self q qs) hm2
        · exact ih p (by rw [hsp]; exact List.mem_cons_of_mem q hp2)

lemma pyFloatChars_nonneg (cs : List Char) (v : ℚ) (hno : '-' ∉ cs)
    (h : pyFloatChars cs = some v) : 0 ≤ v := by
  unfold pyFloatChars at h
  split at h
  · exact parseUnsignedChars_nonneg _ _ h
  · exact absurd (List.mem_cons_self _ _) hno
  · exact parseUnsignedChars_nonneg _ _ h

lemma parse_calorie_str_nonneg (s : String) : 0 ≤ parse_calorie_str s := by
  simp only [parse_calorie_str]
  have hparts : ∀ p ∈ splitOnChar '-' (trimChars s.toList), ('-') ∉ trimChars p :=
    fun p hp hm => splitOnChar_not_mem '-' (trimChars s.toList) p hp (mem_trimChars hm)
  split_ifs with hc
  · split
    · rename_i p0 p1 rest heq
      split
      · rename_i low high h0 h1
        have hl : 0 ≤ low :=
          pyFloatChars_nonneg _ _
            (hparts p0 (by rw [heq]; exact List.mem_cons_self _ _)) h0
        have hh : 0 ≤ high :=
          pyFloatChars_nonneg _ _
            (hparts p1 (by rw [heq]; exact List.mem_cons_of_mem _ (List.mem_cons_self _ _))) h1
        exact div_nonneg (by linarith) (by norm_num)
      · exact le_refl 0
    · exact le_refl 0
  · have hnm : ('-') ∉ trimChars s.toList := by simpa using hc
    split
    · rename_i v hv
      exact pyFloatChars_nonneg _ _ hnm hv
    · exact le_refl 0

/-- C3 counterexample: the claim says the range branch splits on the FIRST
hyphen, which at input "100-200-300" would make the high part the
unparsable text "200-300" and return 0.0; the code splits on every hyphen,
takes the first two parts 100 and 200, and returns 150.0. -/
theorem parse_calorie_range_counterexample :
    parse_calorie_value (.str "100-200-300") = 150 ∧
    firstHyphenMean (trimChars ("100-200-300").toList) = 0 ∧
    parse_calorie_value (.str "100-200-300") ≠
      firstHyphenMean (trimChars ("100-200-300").toList) := by
  refine ⟨?_, rfl, ?_⟩
  · show ((100 : ℚ) + 200) / 2 = 150
    norm_num
  · show ((100 : ℚ) + 200) / 2 ≠ 0
    norm_num

/-- C3 (amended): for every string whose trimmed form contains a hyphen,
the normalizer splits the trimmed text on EVERY hyphen, takes the first
two parts as low and high, parses both as floats and returns their mean,
returning 0.0 if either part fails to parse. -/
theorem parse_calorie_range_every_hyphen (s : String)
    (h : '-' ∈ trimChars s.toList) :
    parse_calorie_value (.str s) = everyHyphenMean (trimChars s.toList) := by
  show parse_calorie_str s = everyHyphenMean (trimChars s.toList)
  simp only [parse_calorie_str, everyHyphenMean]
  rw [if_pos (by simpa using h)]

/-- Witness for the amended C3 at "450-500", whose value is 475. -/
theorem parse_calorie_range_every_hyphen_witness :
    '-' ∈ trimChars ("450-500").toList ∧
    parse_calorie_value (.str "450-500") = everyHyphenMean (trimChars ("450-500").toList) ∧
    parse_calorie_value (.str "450-500") = 475 :=
  ⟨by decide, parse_calorie_range_every_hyphen "450-500" (by decide),
   by show ((450 : ℚ) + 500) / 2 = 475; norm_num⟩

/-- C4 counterexample: a pre-parsed negative numeric calorie value passes
through `parse_calorie_value` unchanged, so the result is not always
non-negative. -/
theorem parse_calorie_value_nonneg_counterexample :
    parse_calorie_value (.num false (-5)) = -5 ∧
    ¬ (0 : ℚ) ≤ parse_calorie_value (.num false (-5)) :=
  ⟨rfl, by show ¬ (0 : ℚ) ≤ -5; norm_num⟩

/-- C6: for every hyphen-free string, the normalizer agrees with Python
`float`: it returns the parsed value when the string is a valid numeric
literal and 0.0 when it is unparsable. -/
theorem parse_calorie_value_no_hyphen (s : String) (hno : '-' ∉ s.toList) :
    parse_calorie_value (.str s) = (pyFloatOfString s).getD 0 := by
  show parse_calorie_str s = (pyFloatOfString s).getD 0
  have hnt : '-' ∉ trimChars s.toList := fun hm => hno (mem_trimChars hm)
  simp only [parse_calorie_str]
  rw [if_neg (by simpa using hnt), pyFloatOfString]
  cases hv : pyFloatChars (trimChars s.toList) <;> rfl

/-- Witness for C6 at the numeric literal "100". -/
theorem parse_calorie_value_no_hyphen_witness :
    '-' ∉ ("100").toList ∧
    parse_calorie_value (.str "100") = (pyFloatOfString "100").getD 0 :=
  ⟨by decide, parse_calorie_value_no_hyphen "100" (by decide)⟩

/-- C7: for every non-empty meal collection, `calculate_macros` reports
`total_calories` as the sum of the normalizer applied to the calorie
field of every record, `days_count` as the number of distinct dates, `avg_calories` as the
calorie sum divided by the number of distinct dates, and `meal_count` as
the number of records. -/
theorem calculate_macros_nonempty (df : List MealRecord) (hne : df ≠ []) :
    (calculate_macros df).total_calories
        = (df.map (fun r => parse_calorie_value r.calories)).sum ∧
    (calculate_macros df).days_count
        = (df.map (fun r => r.date)).toFinset.card ∧
    (calculate_macros df).avg_calories
        = (df.map (fun r => parse_calorie_value r.calories)).sum
            / ((df.map (fun r => r.date)).toFinset.card : ℚ) ∧
    (calculate_macros df).meal_count = df.length := by
  have hemp : ¬ (df.isEmpty = true) := by simpa [List.isEmpty_iff] using hne
  have hcard : (df.map (fun r => r.date)).toFinset.card
      = (df.map (fun r => r.date)).dedup.length := List.card_toFinset _
  have hpos : 0 < (df.map (fun r => r.date)).dedup.length := by
    rw [List.length_pos, Ne, List.dedup_eq_nil, List.map_eq_nil]
    exact hne
  rw [calculate_macros, if_neg hemp]
  dsimp only
  refine ⟨rfl, ?_, ?_, rfl⟩
  · rw [hcard]
  · rw [if_pos hpos, hcard]

/-- Witness for C7 on the concrete two-meal log `sampleMeals`. -/
theorem calculate_macros_nonempty_witness :
    sampleMeals ≠ [] ∧
    ((calculate_macros sampleMeals).total_calories
        = (sampleMeals.map (fun r => parse_calorie_value r.calories)).sum ∧
     (calculate_macros sampleMeals).days_count
        = (sampleMeals.map (fun r => r.date)).toFinset.card ∧
     (calculate_macros sampleMeals).avg_calories
        = (sampleMeals.map (fun r => parse_calorie_value r.calories)).sum
            / ((sampleMeals.map (fun r => r.date)).toFinset.card : ℚ) ∧
     (calculate_macros sampleMeals).meal_count = sampleMeals.length) :=
  ⟨by simp [sampleMeals], calculate_macros_nonempty sampleMeals (by simp [sampleMeals])⟩

/-- C8: the empty meal collection yields the all-zero aggregate with
`meal_count = 0` and `days_count = 0`; no division is attempted (the
guarded average branches are never taken). -/
theorem calculate_macros_empty :
    calculate_macros [] =
      { total_calories := 0, avg_calories := 0
        total_protein := 0, avg_protein := 0
        total_fat := 0, avg_fat := 0
        total_carbs := 0, avg_carbs := 0
        meal_count := 0, days_count := 0 } := rfl

lemma pyFloat_add_not_neg (x y : PyFloat) (hx : x.isNeg = false) (hy : y.isNeg = false) :
    (PyFloat.add x y).isNeg = false := by
  cases x <;> cases y <;>
    simp_all only [PyFloat.add, PyFloat.isNeg, decide_eq_false_iff_not] <;>
    linarith

lemma pyFloat_half_not_neg (x : PyFloat) (hx : x.isNeg = false) :
    (PyFloat.half x).isNeg = false := by
  cases x <;>
    simp_all only [PyFloat.half, PyFloat.isNeg, decide_eq_false_iff_not]
  intro h
  rename_i v
  have : v < 0 := by linarith
  simp_all

lemma parseUnsignedFull_not_neg (cs : List Char) (r : PyFloat)
    (h : parseUnsignedFull cs = some r) : r.isNeg = false := by
  simp only [parseUnsignedFull] at h
  split_ifs at h with h1 h2 h3
  · simp only [Option.some.injEq] at h
    subst h
    rfl
  · simp only [Option.some.injEq] at h
    subst h
    rfl
  · simp only [Option.some.injEq] at h
    subst h
    rfl
  · rw [Option.map_eq_some'] at h
    obtain ⟨v, hv, rfl⟩ := h
    have := parseUnsignedChars_nonneg cs v hv
    simp only [PyFloat.isNeg, decide_eq_false_iff_not]
    linarith

lemma pyFloatFullChars_not_neg (cs : List Char) (r : PyFloat) (hno : '-' ∉ cs)
    (h : pyFloatFullChars cs = some r) : r.isNeg = false := by
  simp only [pyFloatFullChars] at h
  split_ifs at h with hu
  split at h
  · exact parseUnsignedFull_not_neg _ _ h
  · rename_i rest heq
    have hm : '-' ∈ cs.filter (fun c => c ≠ '_') := by
      rw [heq]
      exact List.mem_cons_self _ _
    exact absurd (List.mem_of_mem_filter hm) hno
  · exact parseUnsignedFull_not_neg _ _ h

lemma parse_calorie_str_full_not_neg (s : String) :
    (parse_calorie_str_full s).isNeg = false := by
  simp only [parse_calorie_str_full]
  have hparts : ∀ p ∈ splitOnChar '-' (trimChars s.toList), ('-') ∉ trimChars p :=
    fun p hp hm => splitOnChar_not_mem '-' (trimChars s.toList) p hp (mem_trimChars hm)
  split_ifs with hc
  · split
    · rename_i p0 p1 rest heq
      split
      · rename_i low high h0 h1
        have hl := pyFloatFullChars_not_neg _ _
          (hparts p0 (by rw [heq]; exact List.mem_cons_self _ _)) h0
        have hh := pyFloatFullChars_not_neg _ _
          (hparts p1 (by rw [heq]; exact List.mem_cons_of_mem _ (List.mem_cons_self _ _))) h1
        exact pyFloat_half_not_neg _ (pyFloat_add_not_neg _ _ hl hh)
      · rfl
    · rfl
  · have hnm : ('-') ∉ trimChars s.toList := by simpa using hc
    split
    · rename_i v hv
      exact pyFloatFullChars_not_neg _ _ hnm hv
    · rfl

/-- C4 (amended): the normalizer never returns a negative value for a
string input — the result is a non-negative finite value, positive
infinity, or NaN (comparisons with which are false); a non-NaN numeric
input is returned unchanged (so a negative number stays negative) and a
NaN numeric input gives 0.0.  The final conjunct records the input that
bounds the amendment: the string "nan" parses, so its result is NaN
rather than a non-negative real. -/
theorem parse_calorie_value_full_never_negative :
    (∀ s : String, (parse_calorie_str_full s).isNeg = false) ∧
    (∀ s : String, parse_calorie_value_full (.str s) = .ok (parse_calorie_str_full s)) ∧
    (∀ x : PyFloat, x ≠ .nan → parse_calorie_value_full (.float x) = .ok x) ∧
    parse_calorie_value_full (.float .nan) = .ok (.finite 0) ∧
    parse_calorie_str_full "nan" = .nan := by
  refine ⟨fun s => parse_calorie_str_full_not_neg s, fun s => rfl, ?_, rfl, rfl⟩
  intro x hx
  simp [parse_calorie_value_full, hx]

/-- Witness for the amended C4: a concrete non-NaN float passes through,
and a string hitting the range branch is not negative. -/
theorem parse_calorie_value_full_never_negative_witness :
    (PyFloat.finite 7 ≠ .nan) ∧
    parse_calorie_value_full (.float (.finite 7)) = .ok (.finite 7) ∧
    (parse_calorie_str_full "abc-def").isNeg = false :=
  ⟨by decide, parse_calorie_value_full_never_negative.2.2.1 (.finite 7) (by decide),
   parse_calorie_value_full_never_negative.1 "abc-def"⟩

/-- C9 counterexample: `pd.to_numeric` parses the strings "inf" and
"-inf" to the infinities, `fillna(0)` replaces only NaN, and the IEEE sum
of the two infinities is NaN — so an infinite cell does not contribute 0
and the resulting total can be NaN. -/
theorem safe_sum_full_nan_counterexample :
    to_numeric_full (.str "inf") = .posInf ∧
    to_numeric_full (.str "-inf") = .negInf ∧
    safe_sum_full [.str "inf", .str "-inf"] = .nan :=
  ⟨rfl, rfl, rfl⟩

/-- C9 (amended): summation treats a missing (`None`), NaN, or unparsable
cell anywhere in the series as contributing 0 — removing it leaves the
sum unchanged — and never raises (it is a total function); but infinite
values pass through `fillna(0)`, so the total is not always finite and
sums mixing the two infinities produce NaN. -/
theorem safe_sum_full_ignores_bad_cells (pre post : List PyCell) (c : PyCell)
    (hc : c = .pyNone ∨ c = .float .nan ∨
      (∃ s, c = .str s ∧ (pdToNumericStr s = none ∨ pdToNumericStr s = some .nan))) :
    safe_sum_full (pre ++ c :: post) = safe_sum_full (pre ++ post) := by
  have h0 : to_numeric_full c = .finite 0 := by
    rcases hc with rfl | rfl | ⟨s, rfl, hs | hs⟩
    · rfl
    · rfl
    · simp [to_numeric_full, hs]
    · simp [to_numeric_full, hs]
  have hid : ∀ x : PyFloat, PyFloat.add x (.finite 0) = x := by
    intro x
    cases x <;> simp [PyFloat.add]
  simp [safe_sum_full, List.foldl_append, h0, hid]

/-- Witness for the amended C9: dropping a `None` cell from the middle of
a series of finite floats. -/
theorem safe_sum_full_ignores_bad_cells_witness :
    ((.pyNone : PyCell) = .pyNone ∨ (.pyNone : PyCell) = .float .nan ∨
      (∃ s, (.pyNone : PyCell) = .str s ∧
        (pdToNumericStr s = none ∨ pdToNumericStr s = some .nan))) ∧
    safe_sum_full ([.float (.finite 1)] ++ .pyNone :: [.float (.finite 2)])
      = safe_sum_full ([.float (.finite 1)] ++ [.float (.finite 2)]) :=
  ⟨Or.inl rfl,
   safe_sum_full_ignores_bad_cells [.float (.finite 1)] [.float (.finite 2)] .pyNone
     (Or.inl rfl)⟩
